import Mathlib

/-!
Verification of the FB2 ingestion pipeline of the BookReader repository
(`reader/views.py`, class `BookViewSet`): `_parse_fb2_content`,
`_validate_fb2_structure`, `_extract_fb2_metadata` (with its inner helpers
`find_text` and `find_all_text`), `_extract_fb2_chapters` and
`_process_fb2_section`.

The XML tree produced by `xml.etree.ElementTree` is modelled by the mutual
inductive `Elem`/`ElemList`: every element has a tag, an optional text node
(the text before its first child), an optional tail (the text after the
element, emitted by the parent's `itertext`) and a list of children.
ElementTree path lookups are modelled by the corresponding document-order
searches: `find("tag")`/`findall("tag")` look at direct children only,
`find(".//tag")`/`findall(".//tag")` at all proper descendants in pre-order.
Python string operations on the relevant code paths are modelled on
`List Char`: `str.strip` by `pyStrip`, `str.endswith`/`str.startswith` by
`pyEndsWith`/`pyStartsWith`, truthiness of `str`/`None` by matching on
`Option String` against `none` and `some ""`.
-/

namespace BookReader

mutual
inductive Elem : Type where
  | mk (tag : String) (text : Option String) (tail : Option String) (children : ElemList)
inductive ElemList : Type where
  | nil : ElemList
  | cons (head : Elem) (rest : ElemList) : ElemList
end

def Elem.tag : Elem → String
  | .mk t _ _ _ => t

def Elem.text : Elem → Option String
  | .mk _ t _ _ => t

def Elem.tail : Elem → Option String
  | .mk _ _ t _ => t

def ElemList.toList : ElemList → List Elem
  | .nil => []
  | .cons c cs => c :: cs.toList

def Elem.children : Elem → List Elem
  | .mk _ _ _ c => c.toList

/-- Build an `ElemList` from a `List`, for writing concrete documents. -/
def listToElemList : List Elem → ElemList
  | [] => .nil
  | c :: cs => .cons c (listToElemList cs)

/-- A convenience constructor for concrete documents. -/
def el (tag : String) (text : Option String) (children : List Elem) : Elem :=
  .mk tag text none (listToElemList children)

/-- Python `str.strip()` (restricted to ASCII whitespace). -/
def pyStrip (s : String) : String :=
  String.mk (((s.toList.dropWhile Char.isWhitespace).reverse.dropWhile Char.isWhitespace).reverse)

/-- Python `str.endswith(t)`. -/
def pyEndsWith (s t : String) : Bool :=
  t.toList.isSuffixOf s.toList

/-- Python `str.startswith(t)`. -/
def pyStartsWith (s t : String) : Bool :=
  t.toList.isPrefixOf s.toList

/-- Python truthiness of an optional string (`None` and `""` are falsy):
returns the string when it is truthy. -/
def truthyText : Option String → Option String
  | none => none
  | some s => if s = "" then none else some s

def optStr : Option String → String
  | none => ""
  | some s => s

mutual
/-- `ElementTree` `element.findall(".//tag")`: all proper descendants with
the given tag, in document order (pre-order). -/
def findallDesc (tag : String) : Elem → List Elem
  | .mk _ _ _ ch => findallDescL tag ch
def findallDescL (tag : String) : ElemList → List Elem
  | .nil => []
  | .cons c cs => (if c.tag = tag then [c] else []) ++ findallDesc tag c ++ findallDescL tag cs
end

mutual
/-- `ElementTree` `element.itertext()` joined by `"".join(...)`: own text,
then recursively each child's itertext followed by the child's tail. -/
def Elem.itertext : Elem → String
  | .mk _ t _ cs => optStr t ++ itertextL cs
def itertextL : ElemList → String
  | .nil => ""
  | .cons c cs => c.itertext ++ optStr c.tail ++ itertextL cs
end

/-- `ElementTree` `element.find(".//tag")`: first proper descendant with the
tag, in document order. -/
def Elem.findDesc (tag : String) (e : Elem) : Option Elem :=
  (findallDesc tag e).head?

/-- `ElementTree` `element.findall("tag")`: direct children with the tag. -/
def Elem.childrenTagged (tag : String) (e : Elem) : List Elem :=
  e.children.filter (fun c => c.tag = tag)

/-- `ElementTree` `element.find("tag")`: first direct child with the tag. -/
def Elem.findChild (tag : String) (e : Elem) : Option Elem :=
  (e.childrenTagged tag).head?

/-- Qualification of a bare tag name by the namespace context: with a
namespace `uri`, the path `"fb:name"` resolves against `ElementTree` tags of
the form `"\x7buri\x7dname"`; without one, the bare name is used. -/
def qualify : Option String → String → String
  | none, name => name
  | some u, name => "\x7b" ++ u ++ "\x7d" ++ name

/-- `root.tag[1:root.tag.find("\x7d")]` from `_parse_fb2_content`. -/
def nsUriOfTag (tag : String) : String :=
  let cs := tag.toList
  if cs.contains '\x7d' then String.mk ((cs.drop 1).takeWhile (fun c => c ≠ '\x7d'))
  else String.mk ((cs.drop 1).dropLast)

/-- Namespace detection in `_parse_fb2_content`: if the root tag starts with
`"\x7b"` the namespace dict is `{"fb": uri}`, else it is empty. -/
def detectNamespace (root : Elem) : Option String :=
  if pyStartsWith root.tag "\x7b" then some (nsUriOfTag root.tag) else none

/-- Records created from each emitted section (`_process_fb2_section`
return value). -/
structure ChapterRecord where
  title : String
  content : String
  order : Nat
deriving Repr, DecidableEq

/-- The dict returned by `_parse_fb2_content` (with `additional_fields`
flattened and the chapter list attached). -/
structure BookRecord where
  title : String
  description : String
  authors : String
  genres : String
  language : String
  chapters : List ChapterRecord
deriving Repr, DecidableEq

/-- `_validate_fb2_structure`: require a `title-info` and a `body`
descendant anywhere under the root, in that order of checking. -/
def validateFB2Structure (ns : Option String) (root : Elem) : Except String Unit :=
  match root.findDesc (qualify ns "title-info") with
  | none => .error "FB2 файл поврежден: отсутствует элемент title-info"
  | some _ =>
    match root.findDesc (qualify ns "body") with
    | none => .error "FB2 файл поврежден: отсутствует элемент body"
    | some _ => .ok ()

/-- Inner helper `find_text` of `_extract_fb2_metadata`: the stripped text
of the first direct child with the tag, or the default when the child is
absent or its text is falsy (`None` or `""`). -/
def pyFindText (ns : Option String) (e : Elem) (name dflt : String) : String :=
  match e.findChild (qualify ns name) with
  | none => dflt
  | some f =>
    match f.text with
    | none => dflt
    | some t => if t = "" then dflt else pyStrip t

/-- Inner helper `find_all_text` of `_extract_fb2_metadata`: the stripped
texts of the direct children with the tag whose text is truthy, space-joined. -/
def pyFindAllText (ns : Option String) (e : Elem) (name : String) : String :=
  String.intercalate " "
    ((e.childrenTagged (qualify ns name)).filterMap (fun c =>
      (truthyText c.text).map pyStrip))

/-- `_extract_fb2_metadata`. -/
def extractFB2Metadata (ns : Option String) (root : Elem) : Except String BookRecord :=
  match root.findDesc (qualify ns "title-info") with
  | none => .error "Не найдена секция title-info в FB2 файле"
  | some titleInfo =>
    let title := pyFindText ns titleInfo "book-title" "Без названия"
    let authors := (findallDesc (qualify ns "author") titleInfo).filterMap (fun a =>
      let firstName := pyFindText ns a "first-name" ""
      let lastName := pyFindText ns a "last-name" ""
      let middleName := pyFindText ns a "middle-name" ""
      let authorName := String.intercalate " "
        (([firstName, middleName, lastName]).filter (fun s => s ≠ ""))
      if authorName = "" then none else some authorName)
    let description :=
      match titleInfo.findDesc (qualify ns "annotation") with
      | none => ""
      | some ann =>
        let paragraphs := findallDesc (qualify ns "p") ann
        if paragraphs.isEmpty then pyStrip ann.itertext
        else String.intercalate "\n" (paragraphs.filterMap (fun p =>
          (truthyText p.text).map pyStrip))
    let genres := pyFindAllText ns titleInfo "genre"
    let language := pyFindText ns titleInfo "lang" "ru"
    .ok { title := title, description := description,
          authors := if authors.isEmpty then "" else String.intercalate ", " authors,
          genres := genres, language := language, chapters := [] }

/-- Title derivation in `_process_fb2_section` before the fallback: the
space-joined stripped truthy texts of the paragraph descendants of the
direct `title` child, or (absent paragraphs) the stripped `itertext` of the
`title` child; `""` when there is no `title` child. -/
def chapterTitleRaw (ns : Option String) (sec : Elem) : String :=
  match sec.findChild (qualify ns "title") with
  | none => ""
  | some titleElem =>
    let titleParagraphs := findallDesc (qualify ns "p") titleElem
    if titleParagraphs.isEmpty then pyStrip titleElem.itertext
    else String.intercalate " " (titleParagraphs.filterMap (fun p =>
      (truthyText p.text).map pyStrip))

/-- The direct-child filter of the content loop in `_process_fb2_section`:
`child.tag.endswith("p") or (namespace and child.tag == "\x7buri\x7dp")`. -/
def isParagraphChild (ns : Option String) (c : Elem) : Bool :=
  pyEndsWith c.tag "p" || (ns.isSome && c.tag = qualify ns "p")

/-- Content extraction in `_process_fb2_section`: stripped non-empty
`itertext` of each direct paragraph child, joined with blank lines. -/
def chapterContent (ns : Option String) (sec : Elem) : String :=
  String.intercalate "\n\n"
    ((sec.children.filter (isParagraphChild ns)).filterMap (fun p =>
      let t := pyStrip p.itertext
      if t = "" then none else some t))

/-- `_process_fb2_section`: emit a record unless the joined content strips
to empty; the title falls back to `"Глава {order}"` when the raw title is
empty. -/
def processFB2Section (ns : Option String) (sec : Elem) (order : Nat) : Option ChapterRecord :=
  let rawTitle := chapterTitleRaw ns sec
  let title := if rawTitle = "" then "Глава " ++ toString order else rawTitle
  let content := chapterContent ns sec
  if pyStrip content = "" then none
  else some { title := title, content := content, order := order }

/-- Python `enumerate(xs, n)`. -/
def enumerate1 {α : Type} : Nat → List α → List (Nat × α)
  | _, [] => []
  | n, x :: xs => (n, x) :: enumerate1 (n + 1) xs

/-- The two-tier candidate-section search of `_extract_fb2_chapters`:
direct child sections of the body, falling back to all descendant sections
when there are none. -/
def sectionsOfBody (ns : Option String) (body : Elem) : List Elem :=
  let direct := body.childrenTagged (qualify ns "section")
  if direct.isEmpty then findallDesc (qualify ns "section") body else direct

/-- The per-body part of `_extract_fb2_chapters`: process each candidate
section with its 1-based index among all candidates, keeping the emitted
records. -/
def chaptersFromBody (ns : Option String) (body : Elem) : List ChapterRecord :=
  (enumerate1 1 (sectionsOfBody ns body)).filterMap (fun p => processFB2Section ns p.2 p.1)

/-- `_extract_fb2_chapters`: chapters of the first `body` descendant, or
`[]` when there is none. -/
def extractFB2Chapters (ns : Option String) (root : Elem) : List ChapterRecord :=
  match root.findDesc (qualify ns "body") with
  | none => []
  | some body => chaptersFromBody ns body

/-- The candidate sections a document contributes, as enumerated by
`_extract_fb2_chapters` (empty when there is no body). -/
def candidateSections (ns : Option String) (root : Elem) : List Elem :=
  match root.findDesc (qualify ns "body") with
  | none => []
  | some body => sectionsOfBody ns body

/-- `_parse_fb2_content` after the XML parse succeeded: namespace
resolution, structure validation, metadata extraction, chapter extraction;
a `ValueError` from a step is wrapped by the outer handler. -/
def parseFB2 (root : Elem) : Except String BookRecord :=
  let ns := detectNamespace root
  match validateFB2Structure ns root with
  | .error e => .error ("Ошибка при парсинге FB2: " ++ e)
  | .ok _ =>
    match extractFB2Metadata ns root with
    | .error e => .error ("Ошибка при парсинге FB2: " ++ e)
    | .ok md => .ok { md with chapters := extractFB2Chapters ns root }

end BookReader

namespace BookReader

/-- A document whose first candidate section has empty content (it is
dropped) and whose second section has content. -/
def fb2DocDroppedFirst : Elem :=
  el "FictionBook" none [
    el "description" none [el "title-info" none [el "book-title" (some "T") []]],
    el "body" none [
      el "section" none [],
      el "section" none [el "p" (some "hello") []]
    ]
  ]

/-- A document whose single candidate section has no title child. -/
def fb2DocUntitledSection : Elem :=
  el "FictionBook" none [
    el "title-info" none [el "book-title" (some "T") []],
    el "body" none [
      el "section" none [el "p" (some "hi") []]
    ]
  ]

/-- A document with a title-info but no body anywhere. -/
def fb2DocNoBody : Elem :=
  el "FictionBook" none [el "title-info" none []]

/-- A document with one content-bearing section, for the emission witness. -/
def fb2DocOneChapter : Elem :=
  el "FictionBook" none [
    el "title-info" none [el "book-title" (some "T") []],
    el "body" none [
      el "section" none [el "title" none [el "p" (some "Intro") []],
                         el "p" (some "Hello world.") []]
    ]
  ]

/-- A body with no direct child sections and two sections nested two levels
deep, reached only by the descendant fallback. -/
def fb2BodyNested : Elem :=
  el "body" none [
    el "wrapper" none [
      el "inner" none [
        el "section" none [el "p" (some "one") []],
        el "section" none [el "p" (some "two") []]
      ]
    ]
  ]

/-- A document whose book-title text is whitespace-only. -/
def fb2DocBlankTitle : Elem :=
  el "FictionBook" none [
    el "title-info" none [el "book-title" (some "   ") []],
    el "body" none [el "section" none [el "p" (some "x") []]]
  ]

/-- A document whose book-title text strips to `"X"`. -/
def fb2DocTitleX : Elem :=
  el "FictionBook" none [
    el "title-info" none [el "book-title" (some "  X  ") []],
    el "body" none [el "section" none [el "p" (some "x") []]]
  ]

/-- The title-info element of `fb2DocTitleX`. -/
def fb2TitleInfoX : Elem := el "title-info" none [el "book-title" (some "  X  ") []]

/-- The record `parseFB2` produces for `fb2DocTitleX`. -/
def fb2RecordX : BookRecord :=
  ⟨"X", "", "", "", "ru", [⟨"Глава 1", "x", 1⟩]⟩

/-- A document whose title-info has no lang child. -/
def fb2DocNoLang : Elem :=
  el "FictionBook" none [
    el "title-info" none [el "book-title" (some "T") []],
    el "body" none [el "section" none [el "p" (some "x") []]]
  ]

/-- The title-info element of `fb2DocNoLang`. -/
def fb2TitleInfoNoLang : Elem := el "title-info" none [el "book-title" (some "T") []]

/-- The record `parseFB2` produces for `fb2DocNoLang`. -/
def fb2RecordNoLang : BookRecord :=
  ⟨"T", "", "", "", "ru", [⟨"Глава 1", "x", 1⟩]⟩

/-- A document whose only genre element is nested below a wrapper inside
title-info, hence not a direct child of title-info. -/
def fb2DocNestedGenre : Elem :=
  el "FictionBook" none [
    el "title-info" none [el "wrap" none [el "genre" (some "sf") []]],
    el "body" none [el "section" none [el "p" (some "x") []]]
  ]

/-- A document with two direct genre children of title-info. -/
def fb2DocTwoGenres : Elem :=
  el "FictionBook" none [
    el "title-info" none [el "genre" (some "sf") [], el "genre" (some " fantasy ") []],
    el "body" none [el "section" none [el "p" (some "x") []]]
  ]

/-- The title-info element of `fb2DocTwoGenres`. -/
def fb2TitleInfoTwoGenres : Elem :=
  el "title-info" none [el "genre" (some "sf") [], el "genre" (some " fantasy ") []]

/-- The record `parseFB2` produces for `fb2DocTwoGenres`. -/
def fb2RecordTwoGenres : BookRecord :=
  ⟨"Без названия", "", "", "sf fantasy", "ru", [⟨"Глава 1", "x", 1⟩]⟩

/-- A small document for the determinism witness. -/
def fb2DocSmall : Elem :=
  el "FictionBook" none [
    el "title-info" none [el "book-title" (some "S") []],
    el "body" none [el "section" none [el "p" (some "y") []]]
  ]

/-- The first body of `fb2DocTwoBodies`. -/
def fb2FirstBody : Elem :=
  el "body" none [el "section" none [el "p" (some "main text") []]]

/-- The second (notes) body of `fb2DocTwoBodies`. -/
def fb2NotesBody : Elem :=
  el "body" none [el "section" none [el "p" (some "note text") []]]

/-- A document with two body elements in document order. -/
def fb2DocTwoBodies : Elem :=
  el "FictionBook" none [
    el "title-info" none [el "book-title" (some "T") []],
    fb2FirstBody,
    fb2NotesBody
  ]

end BookReader

namespace BookReader

/-- Characterisation of a successful `_process_fb2_section`: the emitted
record carries the order it was called with, the joined content, and the
title with its fallback applied. -/
theorem processFB2Section_some_spec (ns : Option String) (sec : Elem) (k : Nat)
    (c : ChapterRecord) (h : processFB2Section ns sec k = some c) :
    c.order = k ∧ c.content = chapterContent ns sec ∧ pyStrip c.content ≠ "" ∧
    c.title = (if chapterTitleRaw ns sec = "" then "Глава " ++ toString k
               else chapterTitleRaw ns sec) := by
  unfold processFB2Section at h
  by_cases hc : pyStrip (chapterContent ns sec) = ""
  · simp [hc] at h
  · simp only [hc, if_neg, ite_false, Option.some.injEq] at h
    subst h
    exact ⟨rfl, rfl, hc, rfl⟩

/-- `_process_fb2_section` emits a record exactly when the joined content
does not strip to empty. -/
theorem processFB2Section_isSome_iff (ns : Option String) (sec : Elem) (k : Nat) :
    (processFB2Section ns sec k).isSome = true ↔ pyStrip (chapterContent ns sec) ≠ "" := by
  unfold processFB2Section
  by_cases hc : pyStrip (chapterContent ns sec) = "" <;> simp [hc]

/-- The element at index `k` of a list appears in the Python-style
enumeration starting at `n` with counter `n + k`. -/
theorem getElem?_enumerate1_mem {α : Type} (l : List α) (n k : Nat) (x : α)
    (h : l[k]? = some x) : (n + k, x) ∈ enumerate1 n l := by
  induction l generalizing n k with
  | nil => simp at h
  | cons y ys ih =>
    cases k with
    | zero =>
      simp at h
      subst h
      simp [enumerate1]
    | succ k =>
      simp only [List.getElem?_cons_succ] at h
      have hk : n + (k + 1) = (n + 1) + k := by omega
      rw [hk]
      exact List.mem_cons_of_mem _ (ih (n + 1) k h)

/-- `_extract_fb2_chapters` is the filter-map of `_process_fb2_section`
over the enumerated candidate sections. -/
theorem extractFB2Chapters_eq_filterMap (ns : Option String) (root : Elem) :
    extractFB2Chapters ns root
      = (enumerate1 1 (candidateSections ns root)).filterMap
          (fun p => processFB2Section ns p.2 p.1) := by
  unfold extractFB2Chapters candidateSections chaptersFromBody
  cases h : root.findDesc (qualify ns "body") <;> simp [enumerate1]

/-- Structure of the chapter list produced from an enumeration starting at
`n`: every emitted record's order is `n` plus the index of its section, is
bounded by the candidate count, and the orders strictly increase. -/
theorem chapters_aux (ns : Option String) (n : Nat) (l : List Elem) :
    (∀ c ∈ (enumerate1 n l).filterMap (fun p => processFB2Section ns p.2 p.1),
        n ≤ c.order ∧ c.order < n + l.length ∧
        ∃ k sec, l[k]? = some sec ∧ c.order = n + k ∧
          processFB2Section ns sec (n + k) = some c)
    ∧ (((enumerate1 n l).filterMap (fun p => processFB2Section ns p.2 p.1)).map
        ChapterRecord.order).Pairwise (· < ·) := by
  induction l generalizing n with
  | nil => simp [enumerate1]
  | cons x xs ih =>
    have ihn := ih (n + 1)
    simp only [enumerate1, List.filterMap_cons]
    cases hx : processFB2Section ns x n with
    | none =>
      refine ⟨fun c hc => ?_, ihn.2⟩
      obtain ⟨h1, h2, k, sec, hk, hord, hp⟩ := ihn.1 c hc
      refine ⟨by omega, by simp; omega, k + 1, sec, by simpa using hk, by omega, ?_⟩
      have : n + (k + 1) = (n + 1) + k := by omega
      rw [this]; exact hp
    | some c0 =>
      have hord0 := (processFB2Section_some_spec ns x n c0 hx).1
      constructor
      · intro c hc
        rcases List.mem_cons.mp hc with hc | hc
        · subst hc
          refine ⟨by omega, by simp; omega, 0, x, by simp, by omega, ?_⟩
          simpa using hx
        · obtain ⟨h1, h2, k, sec, hk, hord, hp⟩ := ihn.1 c hc
          refine ⟨by omega, by simp; omega, k + 1, sec, by simpa using hk, by omega, ?_⟩
          have : n + (k + 1) = (n + 1) + k := by omega
          rw [this]; exact hp
      · rw [List.map_cons]
        refine List.Pairwise.cons ?_ ihn.2
        intro o ho
        simp only [List.mem_map] at ho
        obtain ⟨c, hc, rfl⟩ := ho
        have := (ihn.1 c hc).1
        omega

/-- A successful `_parse_fb2_content` run embeds a successful metadata
extraction, whose title, genres and language fields it returns unchanged. -/
theorem parseFB2_ok_metadata (root : Elem) (r : BookRecord)
    (hr : parseFB2 root = .ok r) :
    ∃ md, extractFB2Metadata (detectNamespace root) root = .ok md ∧
      r.title = md.title ∧ r.genres = md.genres ∧ r.language = md.language := by
  simp only [parseFB2] at hr
  cases hv : validateFB2Structure (detectNamespace root) root with
  | error e => rw [hv] at hr; simp at hr
  | ok u =>
    rw [hv] at hr
    cases hm : extractFB2Metadata (detectNamespace root) root with
    | error e => rw [hm] at hr; simp at hr
    | ok md =>
      rw [hm] at hr
      simp only [Except.ok.injEq] at hr
      subst hr
      exact ⟨md, rfl, rfl, rfl, rfl⟩

/-- A successful `_extract_fb2_metadata` run computes title, genres and
language by `find_text`/`find_all_text` on the first title-info element. -/
theorem extractFB2Metadata_ok_fields (ns : Option String) (root : Elem) (ti : Elem)
    (md : BookRecord)
    (hti : root.findDesc (qualify ns "title-info") = some ti)
    (hm : extractFB2Metadata ns root = .ok md) :
    md.title = pyFindText ns ti "book-title" "Без названия" ∧
    md.genres = pyFindAllText ns ti "genre" ∧
    md.language = pyFindText ns ti "lang" "ru" := by
  unfold extractFB2Metadata at hm
  rw [hti] at hm
  simp only [Except.ok.injEq] at hm
  subst hm
  exact ⟨rfl, rfl, rfl⟩

end BookReader

namespace BookReader

/-- C1, counterexample: on a document whose first candidate section is
dropped for empty content and whose second is emitted, the single emitted
chapter has order 2, not the gapless sequence 1..1 the claim requires. -/
theorem fb2_orders_not_gapless_counterexample :
    (parseFB2 fb2DocDroppedFirst).map (fun r => r.chapters.map ChapterRecord.order)
        = Except.ok [2]
    ∧ [2] ≠ List.range' 1 1 := ⟨rfl, by decide⟩

/-- C1 (amended): the order values of the emitted chapters are strictly
increasing in document order and lie within 1..(number of candidate
sections); each emitted chapter's order equals the 1-based position of its
section among all candidate sections before empty-content filtering — not
its rank among emitted chapters — so dropped sections leave gaps. -/
theorem fb2_chapter_orders_candidate_rank (ns : Option String) (root : Elem) :
    (((extractFB2Chapters ns root).map ChapterRecord.order).Pairwise (· < ·))
    ∧ (∀ c ∈ extractFB2Chapters ns root,
        1 ≤ c.order ∧ c.order ≤ (candidateSections ns root).length ∧
        ∃ sec, (candidateSections ns root)[c.order - 1]? = some sec ∧
          processFB2Section ns sec c.order = some c) := by
  have haux := chapters_aux ns 1 (candidateSections ns root)
  rw [extractFB2Chapters_eq_filterMap ns root]
  refine ⟨haux.2, fun c hc => ?_⟩
  obtain ⟨h1, h2, k, sec, hk, hord, hp⟩ := haux.1 c hc
  refine ⟨h1, by omega, sec, ?_, ?_⟩
  · have : c.order - 1 = k := by omega
    rw [this]; exact hk
  · rw [hord]; exact hp

/-- C1 witness: the amended statement evaluated on the emitted chapter of
order 2 of `fb2DocDroppedFirst`. -/
theorem fb2_chapter_orders_candidate_rank_witness :
    1 ≤ (2 : Nat) ∧ (2 : Nat) ≤ (candidateSections none fb2DocDroppedFirst).length ∧
    ∃ sec, (candidateSections none fb2DocDroppedFirst)[(2 : Nat) - 1]? = some sec ∧
      processFB2Section none sec 2 = some ⟨"Глава 2", "hello", 2⟩ := by
  have h := (fb2_chapter_orders_candidate_rank none fb2DocDroppedFirst).2
    ⟨"Глава 2", "hello", 2⟩ (by decide)
  exact h

/-- C2: a candidate section at 0-based position k among all candidate
sections (counted before empty-content filtering) whose raw title
extraction is empty is emitted, if at all, with the localized fallback
title built from its 1-based candidate position k+1. -/
theorem fb2_title_fallback_candidate_position (ns : Option String) (root : Elem)
    (k : Nat) (sec : Elem) (c : ChapterRecord)
    (hk : (candidateSections ns root)[k]? = some sec)
    (ht : chapterTitleRaw ns sec = "")
    (hc : processFB2Section ns sec (k + 1) = some c) :
    c ∈ extractFB2Chapters ns root ∧ c.title = "Глава " ++ toString (k + 1) := by
  constructor
  · rw [extractFB2Chapters_eq_filterMap ns root]
    refine List.mem_filterMap.mpr ⟨(1 + k, sec), getElem?_enumerate1_mem _ 1 k sec hk, ?_⟩
    have : 1 + k = k + 1 := by omega
    rw [this]; exact hc
  · have := (processFB2Section_some_spec ns sec (k + 1) c hc).2.2.2
    rw [ht] at this
    simpa using this

/-- C2 witness: the untitled section of `fb2DocUntitledSection` is emitted
with title "Глава 1". -/
theorem fb2_title_fallback_candidate_position_witness :
    (⟨"Глава 1", "hi", 1⟩ : ChapterRecord) ∈ extractFB2Chapters none fb2DocUntitledSection
    ∧ ChapterRecord.title ⟨"Глава 1", "hi", 1⟩ = "Глава " ++ toString (0 + 1) :=
  fb2_title_fallback_candidate_position none fb2DocUntitledSection 0
    (el "section" none [el "p" (some "hi") []]) ⟨"Глава 1", "hi", 1⟩ rfl rfl rfl

/-- C3: a document without a title-info descendant, or without a body
descendant, parses to an error naming the missing element (wrapped by the
outer handler); no record is returned, the whole parse aborts. -/
theorem fb2_missing_structure_aborts (root : Elem) :
    (Elem.findDesc (qualify (detectNamespace root) "title-info") root = none →
      parseFB2 root
        = .error "Ошибка при парсинге FB2: FB2 файл поврежден: отсутствует элемент title-info")
    ∧ ((Elem.findDesc (qualify (detectNamespace root) "title-info") root).isSome = true →
       Elem.findDesc (qualify (detectNamespace root) "body") root = none →
        parseFB2 root
          = .error "Ошибка при парсинге FB2: FB2 файл поврежден: отсутствует элемент body") := by
  constructor
  · intro h
    simp only [parseFB2, validateFB2Structure, h]
    rfl
  · intro h1 h2
    cases h : Elem.findDesc (qualify (detectNamespace root) "title-info") root with
    | none => rw [h] at h1; simp at h1
    | some ti =>
      simp only [parseFB2, validateFB2Structure, h, h2]
      rfl

/-- C3 witness: `fb2DocNoBody` has a title-info but no body, and parsing
fails with the error naming "body". -/
theorem fb2_missing_structure_aborts_witness :
    parseFB2 fb2DocNoBody
      = .error "Ошибка при парсинге FB2: FB2 файл поврежден: отсутствует элемент body" :=
  (fb2_missing_structure_aborts fb2DocNoBody).2 rfl rfl

/-- C4: a candidate section is emitted if and only if its joined direct
paragraph content is non-empty after stripping; an emitted record carries
exactly that content, and no emitted chapter of any document has empty
content. -/
theorem fb2_emission_iff_nonempty_content :
    (∀ (ns : Option String) (sec : Elem) (k : Nat),
        (processFB2Section ns sec k).isSome = true ↔ pyStrip (chapterContent ns sec) ≠ "")
    ∧ (∀ (ns : Option String) (sec : Elem) (k : Nat) (c : ChapterRecord),
        processFB2Section ns sec k = some c → c.content = chapterContent ns sec)
    ∧ (∀ (ns : Option String) (root : Elem) (c : ChapterRecord),
        c ∈ extractFB2Chapters ns root → c.content ≠ "") := by
  refine ⟨processFB2Section_isSome_iff, ?_, ?_⟩
  · intro ns sec k c h
    exact (processFB2Section_some_spec ns sec k c h).2.1
  · intro ns root c hc
    rw [extractFB2Chapters_eq_filterMap ns root] at hc
    obtain ⟨⟨k, sec⟩, _, hp⟩ := List.mem_filterMap.mp hc
    have hne := (processFB2Section_some_spec ns sec k c hp).2.2.1
    intro hcon
    rw [hcon] at hne
    exact hne rfl

/-- C4 witness: the emitted chapter of `fb2DocOneChapter` has non-empty
content. -/
theorem fb2_emission_iff_nonempty_content_witness :
    ChapterRecord.content ⟨"Intro", "Hello world.", 1⟩ ≠ "" :=
  fb2_emission_iff_nonempty_content.2.2 none fb2DocOneChapter
    ⟨"Intro", "Hello world.", 1⟩ (by decide)

/-- C5: the candidate sections are the direct child sections of the body
when there are any, and exactly otherwise all descendant sections of the
body in document order. -/
theorem fb2_two_tier_section_search (ns : Option String) (body : Elem) :
    (Elem.childrenTagged (qualify ns "section") body ≠ [] →
       sectionsOfBody ns body = Elem.childrenTagged (qualify ns "section") body)
    ∧ (Elem.childrenTagged (qualify ns "section") body = [] →
       sectionsOfBody ns body = findallDesc (qualify ns "section") body) := by
  unfold sectionsOfBody
  constructor
  · intro h
    rw [if_neg (by simpa [List.isEmpty_iff] using h)]
  · intro h
    rw [if_pos (by simpa [List.isEmpty_iff] using h)]

/-- C5 witness: `fb2BodyNested` has no direct child sections, so its
candidates are all descendant sections. -/
theorem fb2_two_tier_section_search_witness :
    sectionsOfBody none fb2BodyNested = findallDesc "section" fb2BodyNested :=
  (fb2_two_tier_section_search none fb2BodyNested).2 rfl

end BookReader

namespace BookReader

/-- C6, counterexample: a book-title whose text is whitespace-only yields
the empty title, not the localized default "Без названия" the claim
requires for text that is empty after trimming. -/
theorem fb2_blank_title_counterexample :
    (parseFB2 fb2DocBlankTitle).map BookRecord.title = Except.ok ""
    ∧ ("" : String) ≠ "Без названия" := ⟨rfl, by decide⟩

/-- C6 (amended): the title is the localized default exactly when the
book-title child is absent or its text node is absent or the empty string
(checked before trimming); otherwise it is the trimmed text, which is empty
— not the default — for whitespace-only text. -/
theorem fb2_default_title_amended (root : Elem) (ti : Elem) (r : BookRecord)
    (hti : root.findDesc (qualify (detectNamespace root) "title-info") = some ti)
    (hr : parseFB2 root = .ok r) :
    r.title = (match Elem.findChild (qualify (detectNamespace root) "book-title") ti with
      | none => "Без названия"
      | some bt => match bt.text with
        | none => "Без названия"
        | some t => if t = "" then "Без названия" else pyStrip t) := by
  obtain ⟨md, hm, h1, _, _⟩ := parseFB2_ok_metadata root r hr
  have hf := (extractFB2Metadata_ok_fields (detectNamespace root) root ti md hti hm).1
  rw [h1, hf]
  rfl

/-- C6 witness: the amended statement evaluated on `fb2DocTitleX`, whose
book-title text "  X  " trims to "X". -/
theorem fb2_default_title_amended_witness :
    BookRecord.title fb2RecordX = "X" := by
  have h := fb2_default_title_amended fb2DocTitleX fb2TitleInfoX fb2RecordX rfl rfl
  exact h

/-- C7: a title-info without a lang child yields language "ru", and a lang
child with non-empty text yields its trimmed text. -/
theorem fb2_language_default_ru (root : Elem) (ti : Elem) (r : BookRecord)
    (hti : root.findDesc (qualify (detectNamespace root) "title-info") = some ti)
    (hr : parseFB2 root = .ok r) :
    (Elem.findChild (qualify (detectNamespace root) "lang") ti = none → r.language = "ru")
    ∧ (∀ (le : Elem) (t : String),
        Elem.findChild (qualify (detectNamespace root) "lang") ti = some le →
        le.text = some t → t ≠ "" → r.language = pyStrip t) := by
  obtain ⟨md, hm, _, _, h3⟩ := parseFB2_ok_metadata root r hr
  have hf := (extractFB2Metadata_ok_fields (detectNamespace root) root ti md hti hm).2.2
  rw [h3, hf]
  constructor
  · intro h
    unfold pyFindText
    rw [h]
  · intro le t hle htext ht
    unfold pyFindText
    rw [hle]
    simp only [htext]
    rw [if_neg ht]

/-- C7 witness: `fb2DocNoLang` has no lang child and parses with language
"ru". -/
theorem fb2_language_default_ru_witness :
    BookRecord.language fb2RecordNoLang = "ru" :=
  (fb2_language_default_ru fb2DocNoLang fb2TitleInfoNoLang fb2RecordNoLang rfl rfl).1 rfl

/-- C8, counterexample: a genre element nested below a wrapper inside
title-info is not collected — genres is "" where the claim requires "sf". -/
theorem fb2_nested_genre_counterexample :
    (parseFB2 fb2DocNestedGenre).map BookRecord.genres = Except.ok ""
    ∧ ("" : String) ≠ "sf" := ⟨rfl, by decide⟩

/-- C8 (amended): genres is the space-joined concatenation, in document
order without deduplication, of the trimmed truthy texts of the *direct*
genre children of title-info only — deeper descendants are not searched. -/
theorem fb2_genres_direct_children (root : Elem) (ti : Elem) (r : BookRecord)
    (hti : root.findDesc (qualify (detectNamespace root) "title-info") = some ti)
    (hr : parseFB2 root = .ok r) :
    r.genres = String.intercalate " "
      ((Elem.childrenTagged (qualify (detectNamespace root) "genre") ti).filterMap
        (fun c => (truthyText c.text).map pyStrip)) := by
  obtain ⟨md, hm, _, h2, _⟩ := parseFB2_ok_metadata root r hr
  have hf := (extractFB2Metadata_ok_fields (detectNamespace root) root ti md hti hm).2.1
  rw [h2, hf]
  rfl

/-- C8 witness: the two direct genre children of `fb2DocTwoGenres` are
collected in document order as "sf fantasy". -/
theorem fb2_genres_direct_children_witness :
    BookRecord.genres fb2RecordTwoGenres = "sf fantasy" := by
  have h := fb2_genres_direct_children fb2DocTwoGenres fb2TitleInfoTwoGenres
    fb2RecordTwoGenres rfl rfl
  exact h

/-- C9: parsing is deterministic and pure — two invocations on identical
parsed inputs return identical results; the embedding is a total function
with no state, mirroring the side-effect-free source. -/
theorem parseFB2_deterministic (b1 b2 : Elem) (h : b1 = b2) :
    parseFB2 b1 = parseFB2 b2 :=
  congrArg parseFB2 h

/-- C9 witness: determinism evaluated at `fb2DocSmall`. -/
theorem parseFB2_deterministic_witness :
    parseFB2 fb2DocSmall = parseFB2 fb2DocSmall :=
  parseFB2_deterministic fb2DocSmall fb2DocSmall rfl

/-- C10: when the document's body elements in document order are `b`
followed by any others, the extracted chapters are computed from `b` alone;
sections inside later bodies are never considered. -/
theorem fb2_only_first_body (ns : Option String) (root : Elem) (b : Elem)
    (rest : List Elem) (h : findallDesc (qualify ns "body") root = b :: rest) :
    extractFB2Chapters ns root = chaptersFromBody ns b := by
  unfold extractFB2Chapters Elem.findDesc
  rw [h]
  rfl

/-- C10 witness: the two-body document `fb2DocTwoBodies` takes its chapters
from `fb2FirstBody` only. -/
theorem fb2_only_first_body_witness :
    extractFB2Chapters none fb2DocTwoBodies = chaptersFromBody none fb2FirstBody :=
  fb2_only_first_body none fb2DocTwoBodies fb2FirstBody [fb2NotesBody] rfl

end BookReader
